import Mathlib

/-!
Verification of the request-orchestration core of the Guia-procesos
repository: the error taxonomy (`src/services/errors.ts`), the provider
adapter (`src/services/geminiService.ts`), the alternate service variant
embedded in the repository, and the `handleSearch` orchestrator of the
main App component.  Every definition below is a shallow embedding of the
corresponding TypeScript source; JavaScript truthiness and `||` defaults
are made explicit via `Option` and emptiness tests.  The JS string
builtins (`includes`, `toLowerCase`, `trim`, `endsWith`, `ToNumber`) are
modelled over the character sequence of the string (exact for the ASCII
data these programs compare).
-/

namespace Guia

/-- JS `String.prototype.includes`: substring containment on the
character sequence. -/
def strIncludes (s pat : String) : Bool :=
  decide (pat.data <:+: s.data)

/-- JS `String.prototype.toLowerCase` (ASCII case mapping). -/
def jsToLower (s : String) : String :=
  ⟨s.data.map Char.toLower⟩

/-- JS `String.prototype.trim`: drop whitespace from both ends. -/
def jsTrim (s : String) : String :=
  ⟨((s.data.dropWhile Char.isWhitespace).reverse.dropWhile Char.isWhitespace).reverse⟩

/-- JS `String.prototype.endsWith`. -/
def jsEndsWith (s suf : String) : Bool :=
  decide (suf.data <:+ s.data)

/-- JS `ToNumber` on a string restricted to what a numeric HTTP status
needs: a non-empty digit string parses, anything else is `NaN`
(modelled as `none`). -/
def toNumber? (s : String) : Option Nat :=
  if s.data ≠ [] ∧ s.data.all Char.isDigit then
    some (s.data.foldl (fun a c => a * 10 + (c.toNat - 48)) 0)
  else none

/-- The closed error taxonomy of `src/services/errors.ts`: the base class
`ApiError` and its four subclasses.  Each TS class only fixes a `name`
and a default `message`; the kind identifies the class. -/
inductive ErrKind where
  | apiError
  | networkError
  | invalidQueryError
  | serviceUnavailableError
  | noApiKeyError
deriving DecidableEq, Repr

/-- The `name` property set by each constructor in `errors.ts`. -/
def ErrKind.name : ErrKind → String
  | .apiError => "ApiError"
  | .networkError => "NetworkError"
  | .invalidQueryError => "InvalidQueryError"
  | .serviceUnavailableError => "ServiceUnavailableError"
  | .noApiKeyError => "NoApiKeyError"

/-- An `ApiError` instance: its class (kind) and its `message`. -/
structure ApiErr where
  kind : ErrKind
  message : String
deriving DecidableEq, Repr

/-- Default message of `NetworkError` in `errors.ts`. -/
def networkErrorDefaultMsg : String :=
  "Error de red. Por favor, revise su conexión a internet e inténtelo de nuevo."

/-- Message passed to `InvalidQueryError` by `handleApiError` in
`geminiService.ts` line 35. -/
def invalidQueryHandleMsg : String :=
  "La consulta es inválida o el modelo no pudo procesarla. Por favor, reformule su búsqueda."

/-- Default message of `ServiceUnavailableError` in `errors.ts`. -/
def serviceUnavailableDefaultMsg : String :=
  "El servicio no está disponible en este momento. Por favor, intente más tarde."

/-- Fallback message thrown by `handleApiError` (`geminiService.ts` line 43). -/
def unexpectedApiMsg : String :=
  "Ocurrió un error inesperado al comunicarse con el servicio de IA."

/-- A JS status value as read from `error.httpStatus`, `error.status`
or `error.e.code`: either a number or a string. -/
inductive StatusVal where
  | num (n : Nat)
  | str (s : String)
deriving DecidableEq, Repr

/-- JS truthiness of an optional status value (`undefined`, `0` and
`""` are falsy). -/
def statusTruthy : Option StatusVal → Bool
  | none => false
  | some (.num n) => n != 0
  | some (.str s) => s != ""

/-- JS `a || b || c` on status fields: the first truthy operand, else the
last operand. -/
def firstTruthy (a b c : Option StatusVal) : Option StatusVal :=
  if statusTruthy a then a else if statusTruthy b then b else c

/-- `status === 400` or strict equality with the `INVALID_ARGUMENT` string (strict equality,
no coercion). -/
def isStatus400 : Option StatusVal → Bool
  | some (.num n) => n == 400
  | some (.str s) => s == "INVALID_ARGUMENT"
  | none => false

/-- `status >= 500` or strict equality with the `UNAVAILABLE` string.  A JS `>=` on a string
coerces it with `ToNumber` (a non-numeric string compares as `NaN`,
i.e. false). -/
def isStatus5xxOrUnavailable : Option StatusVal → Bool
  | some (.num n) => n ≥ 500
  | some (.str s) =>
    if s = "UNAVAILABLE" then true
    else match toNumber? s with
      | some n => n ≥ 500
      | none => false
  | none => false

/-- The shape of an arbitrary JS error value as inspected by
`handleApiError`: whether it is an `instanceof ApiError` (and which one),
its `message` property (absent on non-Error throwables), and the three
status fields probed on line 31 of `geminiService.ts`.  The `eCode`
field stands for the value of `error.e && error.e.code`. -/
structure JsError where
  asApiError : Option ApiErr
  message : Option String
  httpStatus : Option StatusVal
  status : Option StatusVal
  eCode : Option StatusVal
deriving DecidableEq, Repr

/-- The JS error value an `ApiError` instance presents to `handleApiError`. -/
def JsError.ofApiErr (a : ApiErr) : JsError :=
  ⟨some a, some a.message, none, none, none⟩

/-- `handleApiError` from `src/services/geminiService.ts` lines 19-44.
It never returns normally in TS; the result models which error it
throws.  `none` models the secondary `TypeError` raised by
`error.message.toLowerCase()` when the error value has no `message`
property (in that case no taxonomy value is produced). -/
def handleApiError (e : JsError) : Option ApiErr :=
  match e.asApiError with
  | some a => some a
  | none =>
    match e.message with
    | none => none
    | some msg =>
      if strIncludes (jsToLower msg) "network" ||
          strIncludes (jsToLower msg) "failed to fetch" then
        some ⟨.networkError, networkErrorDefaultMsg⟩
      else
        let status := firstTruthy e.httpStatus e.status e.eCode
        if statusTruthy status then
          if isStatus400 status then some ⟨.invalidQueryError, invalidQueryHandleMsg⟩
          else if isStatus5xxOrUnavailable status then
            some ⟨.serviceUnavailableError, serviceUnavailableDefaultMsg⟩
          else some ⟨.apiError, unexpectedApiMsg⟩
        else some ⟨.apiError, unexpectedApiMsg⟩

example : handleApiError ⟨none, some "Network failure", none, none, none⟩ =
    some ⟨.networkError, networkErrorDefaultMsg⟩ := by decide

example : handleApiError ⟨none, some "boom", none, some (.num 400), none⟩ =
    some ⟨.invalidQueryError, invalidQueryHandleMsg⟩ := by decide

example : handleApiError ⟨none, some "boom", some (.num 503), none, none⟩ =
    some ⟨.serviceUnavailableError, serviceUnavailableDefaultMsg⟩ := by decide

example : handleApiError ⟨none, some "boom", none, none, some (.str "UNAVAILABLE")⟩ =
    some ⟨.serviceUnavailableError, serviceUnavailableDefaultMsg⟩ := by decide

example : handleApiError ⟨none, some "boom", none, none, none⟩ =
    some ⟨.apiError, unexpectedApiMsg⟩ := by decide

example : handleApiError ⟨some ⟨.noApiKeyError, "k"⟩, some "k", none, none, none⟩ =
    some ⟨.noApiKeyError, "k"⟩ := by decide

lemma statusTruthy_of_isStatus400 {s : Option StatusVal}
    (h : isStatus400 s = true) : statusTruthy s = true := by
  rcases s with _ | v
  · simp [isStatus400] at h
  · rcases v with n | t
    · simp only [isStatus400, beq_iff_eq] at h
      subst h
      decide
    · simp only [isStatus400, beq_iff_eq] at h
      subst h
      decide

/-- C7 counterexample: an error value with no `message` property (e.g. a
thrown plain object) makes `handleApiError` crash on
`error.message.toLowerCase()` with a secondary `TypeError` instead of
rejecting with a taxonomy value; the model returns `none` rather than
`some` classified error, contradicting the claim that `handleApiError`
never lets a secondary exception escape. -/
theorem handleApiError_messageless_escapes :
    handleApiError ⟨none, none, none, none, none⟩ = none ∧
    ∀ a : ApiErr, handleApiError ⟨none, none, none, none, none⟩ ≠ some a := by
  exact ⟨rfl, fun a h => by simp [handleApiError] at h⟩

/-- C7 (amended): for every error value that is an `ApiError` instance or
carries a `message` string, `handleApiError` produces exactly one value
of the closed taxonomy; messages containing the network-failure
substrings map to `NetworkError`, status `400`/`INVALID_ARGUMENT` maps
to `InvalidQueryError`, and status `>= 500` or `UNAVAILABLE` maps to
`ServiceUnavailableError`.  (An error value with neither an `ApiError`
prototype nor a `message` property instead raises a secondary
`TypeError`, see the counterexample.) -/
theorem handleApiError_classifies (e : JsError)
    (h : e.asApiError.isSome = true ∨ e.message.isSome = true) :
    (handleApiError e).isSome = true
    ∧ (∀ msg, e.asApiError = none → e.message = some msg →
        (strIncludes (jsToLower msg) "network" ||
          strIncludes (jsToLower msg) "failed to fetch") = true →
        handleApiError e = some ⟨.networkError, networkErrorDefaultMsg⟩)
    ∧ (∀ msg, e.asApiError = none → e.message = some msg →
        (strIncludes (jsToLower msg) "network" ||
          strIncludes (jsToLower msg) "failed to fetch") = false →
        isStatus400 (firstTruthy e.httpStatus e.status e.eCode) = true →
        handleApiError e = some ⟨.invalidQueryError, invalidQueryHandleMsg⟩)
    ∧ (∀ msg, e.asApiError = none → e.message = some msg →
        (strIncludes (jsToLower msg) "network" ||
          strIncludes (jsToLower msg) "failed to fetch") = false →
        isStatus400 (firstTruthy e.httpStatus e.status e.eCode) = false →
        statusTruthy (firstTruthy e.httpStatus e.status e.eCode) = true →
        isStatus5xxOrUnavailable (firstTruthy e.httpStatus e.status e.eCode) = true →
        handleApiError e = some ⟨.serviceUnavailableError, serviceUnavailableDefaultMsg⟩) := by
  refine ⟨?_, ?_, ?_, ?_⟩
  · rcases he : e.asApiError with _ | a
    · rcases hm : e.message with _ | msg
      · rcases h with h | h
        · simp [he] at h
        · simp [hm] at h
      · simp only [handleApiError, he, hm]
        repeat' split
        all_goals simp
    · simp [handleApiError, he]
  · intro msg he hm hnet
    simp [handleApiError, he, hm, hnet]
  · intro msg he hm hnet h400
    simp [handleApiError, he, hm, hnet, h400, statusTruthy_of_isStatus400 h400]
  · intro msg he hm hnet h400 htr h5
    simp [handleApiError, he, hm, hnet, h400, htr, h5]

/-- C7 witness: a concrete network-flavoured error value is classified. -/
theorem handleApiError_classifies_witness :
    (⟨none, some "Network down", none, none, none⟩ : JsError).message.isSome = true ∧
    (handleApiError ⟨none, some "Network down", none, none, none⟩).isSome = true :=
  ⟨rfl, (handleApiError_classifies ⟨none, some "Network down", none, none, none⟩
    (Or.inr rfl)).1⟩

/-- C10: boundary classification is idempotent: an error value that is
already an `ApiError` instance is rethrown unchanged (same kind and
message), so classifying a classified error changes nothing. -/
theorem handleApiError_idempotent (e : JsError) (a : ApiErr)
    (h : e.asApiError = some a) :
    handleApiError e = some a ∧
    handleApiError (JsError.ofApiErr a) = some a := by
  constructor
  · simp [handleApiError, h]
  · simp [handleApiError, JsError.ofApiErr]

/-- C10 witness: a concrete `NetworkError` instance passes through
`handleApiError` unchanged. -/
theorem handleApiError_idempotent_witness :
    handleApiError (JsError.ofApiErr ⟨.networkError, "net down"⟩) =
      some ⟨.networkError, "net down"⟩ ∧
    handleApiError (JsError.ofApiErr ⟨.networkError, "net down"⟩) =
      some ⟨.networkError, "net down"⟩ :=
  handleApiError_idempotent (JsError.ofApiErr ⟨.networkError, "net down"⟩)
    ⟨.networkError, "net down"⟩ rfl

/-! ## Image generator (`generateProcessImage`, `src/services/geminiService.ts` 104-134) -/

/-- `image.image` payload: the optional `imageBytes` base64 string. -/
structure ImagePayload where
  imageBytes : Option String
deriving DecidableEq, Repr

/-- One element of `response.generatedImages`. -/
structure GeneratedImage where
  image : Option ImagePayload
deriving DecidableEq, Repr

/-- The provider response consumed by `generateProcessImage`. -/
structure ImagesResponse where
  generatedImages : Option (List GeneratedImage)
deriving DecidableEq, Repr

/-- Message of the `ApiError` thrown when the response contains no usable
image data (`geminiService.ts` line 129). -/
def contentMissingMsg : String :=
  "La generación de imagen no devolvió datos válidos."

/-- `generateProcessImage` response handling (`geminiService.ts` lines
120-129): if `generatedImages` is present and non-empty and the first
image carries truthy `imageBytes`, resolve with the data URL; otherwise
throw `ApiError(contentMissingMsg)`.  The throw is caught by the
surrounding `catch`, whose `handleApiError` rethrows `ApiError`
instances unchanged, so the modelled result is the final rejection. -/
def generateProcessImage (resp : ImagesResponse) : Except ApiErr String :=
  match resp.generatedImages with
  | some (img :: _) =>
    match img.image with
    | some payload =>
      match payload.imageBytes with
      | some b =>
        if b = "" then .error ⟨.apiError, contentMissingMsg⟩
        else .ok ("data:image/jpeg;base64," ++ b)
      | none => .error ⟨.apiError, contentMissingMsg⟩
    | none => .error ⟨.apiError, contentMissingMsg⟩
  | some [] => .error ⟨.apiError, contentMissingMsg⟩
  | none => .error ⟨.apiError, contentMissingMsg⟩

example : generateProcessImage ⟨some [⟨some ⟨some "AAAA"⟩⟩]⟩ =
    .ok "data:image/jpeg;base64,AAAA" := by rfl

/-- C5: a successful provider response with zero generated images, or a
first image without image bytes, makes `generateProcessImage` reject
with the content-missing `ApiError` (its dedicated message), a
rejection distinct from the `NetworkError` (transport) and
`NoApiKeyError` (auth) kinds of the taxonomy, and `handleApiError`
passes it through unchanged. -/
theorem generateProcessImage_content_missing (resp : ImagesResponse)
    (h : resp.generatedImages = none ∨ resp.generatedImages = some [] ∨
      ∃ img rest, resp.generatedImages = some (img :: rest) ∧
        (img.image.bind ImagePayload.imageBytes).getD "" = "") :
    generateProcessImage resp = .error ⟨.apiError, contentMissingMsg⟩
    ∧ ErrKind.apiError ≠ ErrKind.networkError
    ∧ ErrKind.apiError ≠ ErrKind.noApiKeyError
    ∧ handleApiError (JsError.ofApiErr ⟨.apiError, contentMissingMsg⟩) =
        some ⟨.apiError, contentMissingMsg⟩ := by
  refine ⟨?_, by decide, by decide, by simp [handleApiError, JsError.ofApiErr]⟩
  rcases h with h | h | ⟨img, rest, h, hb⟩
  · simp [generateProcessImage, h]
  · simp [generateProcessImage, h]
  · rcases hi : img.image with _ | payload
    · simp [generateProcessImage, h, hi]
    · rcases hp : payload.imageBytes with _ | b
      · simp [generateProcessImage, h, hi, hp]
      · simp [hi, hp] at hb
        simp [generateProcessImage, h, hi, hp, hb]

/-- C5 witness: a response with an empty `generatedImages` array. -/
theorem generateProcessImage_content_missing_witness :
    generateProcessImage ⟨some []⟩ = .error ⟨.apiError, contentMissingMsg⟩ :=
  (generateProcessImage_content_missing ⟨some []⟩ (Or.inr (Or.inl rfl))).1

/-! ## Report generator stream consumption

Two implementations coexist in the repository: the canonical
`fetchConstructionProcess` of `src/services/geminiService.ts` (lines
89-96) and the variant service embedded in `src/unnamed/part_000`
(lines 218-242).  Both consume a stream of chunks carrying optional
text and optional grounding metadata. -/

/-- A raw `source.web` object from the grounding metadata of the provider:
both fields are optional in the SDK type. -/
structure RawWeb where
  uri : Option String
  title : Option String
deriving DecidableEq, Repr

/-- A raw grounding chunk (`groundingChunks` element). -/
structure RawSource where
  web : Option RawWeb
deriving DecidableEq, Repr

/-- One streamed response chunk: its `text` and, when present, the
`candidates[0].groundingMetadata.groundingChunks` array (an empty array
is still truthy in JS, hence `Option (List _)`). -/
structure StreamChunk where
  text : Option String
  grounding : Option (List RawSource)
deriving DecidableEq, Repr

/-- The strict repository-side `GroundingChunk` type (`types.ts`): a web
reference with mandatory `uri` and `title`. -/
structure WebInfo where
  uri : String
  title : String
deriving DecidableEq, Repr

/-- Strict grounding source as published to the UI. -/
structure GroundingChunkT where
  web : WebInfo
deriving DecidableEq, Repr

/-- The canonical stream loop (`geminiService.ts` lines 90-95):
`onStream(chunk.text)` is called for every chunk unconditionally, and
the `sources` variable is wholly replaced by the `groundingChunks` array
of any chunk.  The first component records the arguments of
the successive `onStream` calls. -/
def fetchLoop : List StreamChunk → List (Option String) → List RawSource →
    List (Option String) × List RawSource
  | [], calls, sources => (calls, sources)
  | c :: rest, calls, sources =>
    fetchLoop rest (calls ++ [c.text])
      (match c.grounding with
        | some g => g
        | none => sources)

/-- `fetchConstructionProcess` stream consumption, canonical variant:
call trace of `onStream` and the resolved `sources` value. -/
def fetchConstructionProcess (chunks : List StreamChunk) :
    List (Option String) × List RawSource :=
  fetchLoop chunks [] []

/-- Conversion applied by the part_000 variant when pushing a source:
requires `source.web?.uri` truthy and defaults the title with
`source.web.title || source.web.uri`. -/
def convertSource (s : RawSource) : Option GroundingChunkT :=
  match s.web with
  | some w =>
    match w.uri with
    | some u =>
      if u = "" then none
      else some ⟨⟨u, match w.title with
        | some t => if t = "" then u else t
        | none => u⟩⟩
    | none => none
  | none => none

/-- `chunkSources.forEach` body of the part_000 variant (lines 231-240):
push the converted source unless a source with the same `uri` is
already collected. -/
def addSource (acc : List GroundingChunkT) (s : RawSource) : List GroundingChunkT :=
  match convertSource s with
  | some g =>
    if acc.any (fun t => t.web.uri == g.web.uri) then acc else acc ++ [g]
  | none => acc

/-- The part_000 variant stream loop (lines 219-242): `onStream` only for
truthy (present, non-empty) chunk text; grounding entries accumulated
with `addSource`. -/
def fetchLoopV2 : List StreamChunk → List String → List GroundingChunkT →
    List String × List GroundingChunkT
  | [], calls, sources => (calls, sources)
  | c :: rest, calls, sources =>
    fetchLoopV2 rest
      (match c.text with
        | some t => if t = "" then calls else calls ++ [t]
        | none => calls)
      (match c.grounding with
        | some g => g.foldl addSource sources
        | none => sources)

/-- `fetchConstructionProcess` stream consumption, part_000 variant. -/
def fetchConstructionProcessV2 (chunks : List StreamChunk) :
    List String × List GroundingChunkT :=
  fetchLoopV2 chunks [] []

/-- Truthy text of a chunk (present and non-empty), the condition
guarding `onStream` in the part_000 variant. -/
def truthyText (c : StreamChunk) : Option String :=
  match c.text with
  | some t => if t = "" then none else some t
  | none => none

/-- Modelled from the spec: "deduplicating by that reference, preserving
first-seen order" — keep the first occurrence of each distinct `uri`. -/
def specDedupByUri : List GroundingChunkT → List GroundingChunkT
  | [] => []
  | g :: rest => g :: specDedupByUri (rest.filter (fun t => t.web.uri != g.web.uri))
termination_by l => l.length
decreasing_by
  simp_wf
  exact Nat.lt_succ_of_le (List.length_filter_le _ _)

/-- Modelled from the spec: scan the citation metadata of all chunks, keep
only entries with a non-empty reference, deduplicate by reference,
first-seen order. -/
def specSourceList (chunks : List StreamChunk) : List GroundingChunkT :=
  specDedupByUri (((chunks.filterMap StreamChunk.grounding).flatten).filterMap convertSource)

lemma fetchLoop_calls (chunks : List StreamChunk) :
    ∀ calls sources, (fetchLoop chunks calls sources).1 =
      calls ++ chunks.map StreamChunk.text := by
  induction chunks with
  | nil => intro calls sources; simp [fetchLoop]
  | cons c rest ih =>
    intro calls sources
    cases hg : c.grounding <;>
      simp [fetchLoop, hg, ih, List.append_assoc]

lemma fetchLoopV2_calls (chunks : List StreamChunk) :
    ∀ calls sources, (fetchLoopV2 chunks calls sources).1 =
      calls ++ chunks.filterMap truthyText := by
  induction chunks with
  | nil => intro calls sources; simp [fetchLoopV2]
  | cons c rest ih =>
    intro calls sources
    cases hg : c.grounding <;> rcases ht : c.text with _ | t
    · simp [fetchLoopV2, hg, ht, ih, truthyText]
    · by_cases he : t = "" <;>
        simp [fetchLoopV2, hg, ht, ih, truthyText, he, List.append_assoc]
    · simp [fetchLoopV2, hg, ht, ih, truthyText]
    · by_cases he : t = "" <;>
        simp [fetchLoopV2, hg, ht, ih, truthyText, he, List.append_assoc]

lemma fetchLoopV2_sources (chunks : List StreamChunk) :
    ∀ calls sources, (fetchLoopV2 chunks calls sources).2 =
      ((chunks.filterMap StreamChunk.grounding).flatten).foldl addSource sources := by
  induction chunks with
  | nil => intro calls sources; simp [fetchLoopV2]
  | cons c rest ih =>
    intro calls sources
    cases hg : c.grounding <;>
      simp [fetchLoopV2, hg, ih, List.foldl_append]

lemma foldl_addSource_eq (l : List RawSource) :
    ∀ acc : List GroundingChunkT,
      l.foldl addSource acc =
        acc ++ specDedupByUri ((l.filterMap convertSource).filter
          (fun g => !(acc.any (fun t => t.web.uri == g.web.uri)))) := by
  induction l with
  | nil => intro acc; simp [specDedupByUri]
  | cons s rest ih =>
    intro acc
    rcases hc : convertSource s with _ | g
    · have hstep : addSource acc s = acc := by simp [addSource, hc]
      simp only [List.foldl_cons, hstep, List.filterMap_cons, hc]
      exact ih acc
    · cases hany : acc.any (fun t => t.web.uri == g.web.uri)
      · have hstep : addSource acc s = acc ++ [g] := by simp [addSource, hc, hany]
        simp only [List.foldl_cons, hstep, List.filterMap_cons, hc]
        rw [ih (acc ++ [g])]
        rw [List.filter_cons_of_pos (by simp [hany]), specDedupByUri]
        rw [List.append_assoc, List.singleton_append]
        have hfil : (List.filterMap convertSource rest).filter
            (fun x => !((acc ++ [g]).any fun t => t.web.uri == x.web.uri)) =
            ((List.filterMap convertSource rest).filter
              (fun x => !(acc.any fun t => t.web.uri == x.web.uri))).filter
              (fun t => t.web.uri != g.web.uri) := by
          rw [List.filter_filter]
          refine List.filter_congr ?_
          intro x _
          cases hax : acc.any (fun t => t.web.uri == x.web.uri) <;>
            by_cases hgx : g.web.uri = x.web.uri <;>
              simp [List.any_append, hax, hgx, eq_comm, bne]
        rw [hfil]
      · have hstep : addSource acc s = acc := by simp [addSource, hc, hany]
        simp only [List.foldl_cons, hstep, List.filterMap_cons, hc]
        rw [ih acc]
        rw [List.filter_cons_of_neg (by simp [hany])]

/-- C3 counterexample: for a stream whose single chunk carries citation
references `[A, B, A, C]`, the canonical `fetchConstructionProcess`
(`src/services/geminiService.ts` lines 89-96) resolves with the raw
array `[A, B, A, C]` — no deduplication and no non-empty-URI filtering
— not with `[A, B, C]` as the claim states. -/
theorem fetchCP_sources_not_deduped :
    (fetchConstructionProcess
        [⟨none, some [⟨some ⟨some "a", some "A"⟩⟩, ⟨some ⟨some "b", some "B"⟩⟩,
          ⟨some ⟨some "a", some "A"⟩⟩, ⟨some ⟨some "c", some "C"⟩⟩]⟩]).2 =
      [⟨some ⟨some "a", some "A"⟩⟩, ⟨some ⟨some "b", some "B"⟩⟩,
        ⟨some ⟨some "a", some "A"⟩⟩, ⟨some ⟨some "c", some "C"⟩⟩] ∧
    ([⟨some ⟨some "a", some "A"⟩⟩, ⟨some ⟨some "b", some "B"⟩⟩,
        ⟨some ⟨some "a", some "A"⟩⟩, ⟨some ⟨some "c", some "C"⟩⟩] : List RawSource) ≠
      [⟨some ⟨some "a", some "A"⟩⟩, ⟨some ⟨some "b", some "B"⟩⟩,
        ⟨some ⟨some "c", some "C"⟩⟩] := by
  exact ⟨rfl, by decide⟩

/-- C3 (amended): the part_000 variant of `fetchConstructionProcess`
scans the citation metadata of all chunks, keeps only entries with a
non-empty URI, deduplicates by URI and preserves first-seen order —
for chunks carrying `[A, B, A, C]` it resolves with `[A, B, C]`.  The
canonical `src/services/geminiService.ts` variant instead resolves with
the raw citation array of the last carrying chunk, unfiltered and undeduplicated
(see the counterexample). -/
theorem fetchCPV2_sources_dedup_first_seen (chunks : List StreamChunk) :
    (fetchConstructionProcessV2 chunks).2 = specSourceList chunks := by
  unfold fetchConstructionProcessV2 specSourceList
  rw [fetchLoopV2_sources, foldl_addSource_eq]
  have hid : ∀ L : List GroundingChunkT,
      L.filter (fun g => !(([] : List GroundingChunkT).any
        fun t => t.web.uri == g.web.uri)) = L := by
    intro L
    simp
  rw [hid, List.nil_append]

example :
    (fetchConstructionProcessV2
        [⟨none, some [⟨some ⟨some "a", some "A"⟩⟩, ⟨some ⟨some "b", some "B"⟩⟩]⟩,
         ⟨some "x", some [⟨some ⟨some "a", some "A2"⟩⟩, ⟨some ⟨some "c", none⟩⟩,
           ⟨some ⟨some "", some "E"⟩⟩, ⟨none⟩]⟩]).2 =
      [⟨⟨"a", "A"⟩⟩, ⟨⟨"b", "B"⟩⟩, ⟨⟨"c", "c"⟩⟩] := by rfl

/-- C8 counterexample: the canonical `fetchConstructionProcess` invokes
`onStream` once for a chunk whose text is the empty string (and likewise
for an absent text), contradicting the claim that `onChunk` is never
invoked for a chunk whose text is empty or absent. -/
theorem fetchCP_onStream_called_for_empty_chunk :
    (fetchConstructionProcess [⟨some "", none⟩]).1 = [some ""] ∧
    ([some ""] : List (Option String)) ≠ [] := by
  exact ⟨rfl, by decide⟩

/-- C8 (amended): in the part_000 service variant, `onStream` is invoked
exactly once per chunk with truthy (present and non-empty) text, in
stream order, with the text increment of that chunk, and never for an
empty/absent-text chunk; in the canonical
`src/services/geminiService.ts` variant it is invoked once for every
chunk with the (possibly empty or absent) text of that chunk.  In both, the
calls happen synchronously while the loop consumes yielded chunks, so
none occurs after the promise rejects. -/
theorem fetchCP_onStream_call_trace (chunks : List StreamChunk) :
    (fetchConstructionProcessV2 chunks).1 = chunks.filterMap truthyText ∧
    (fetchConstructionProcess chunks).1 = chunks.map StreamChunk.text := by
  constructor
  · unfold fetchConstructionProcessV2
    rw [fetchLoopV2_calls]
    simp
  · unfold fetchConstructionProcess
    rw [fetchLoop_calls]
    simp

/-! ## Request orchestrator (`handleSearch`, App component in
`src/unnamed/part_000` lines 350-456; the `src/unnamed/part_001` App
carries the same cache / history / guard / finalization logic) -/

/-- Published search result (`types.ts` `SearchResult`): streamed text
and the final source list. -/
structure SearchResult where
  text : String
  sources : List GroundingChunkT
deriving DecidableEq, Repr

/-- A cache entry (`{ result, imageUrl }`). -/
structure CacheEntry where
  result : SearchResult
  imageUrl : Option String
deriving DecidableEq, Repr

/-- `searchQuery.trim().toLowerCase()`. -/
def normalize (q : String) : String :=
  jsToLower (jsTrim q)

/-- The `Map`-backed cache, modelled as an association list with `Map`
observational behaviour for `get`/`set`/`delete`. -/
def lookupCache : List (String × CacheEntry) → String → Option CacheEntry
  | [], _ => none
  | (k, v) :: rest, key => if k = key then some v else lookupCache rest key

/-- `cache.delete(key)`. -/
def cacheDelete : List (String × CacheEntry) → String → List (String × CacheEntry)
  | [], _ => []
  | (k, v) :: rest, key =>
    if k = key then cacheDelete rest key else (k, v) :: cacheDelete rest key

/-- `cache.set(key, v)`. -/
def cacheSet (c : List (String × CacheEntry)) (key : String) (v : CacheEntry) :
    List (String × CacheEntry) :=
  (key, v) :: cacheDelete c key

/-- `prev.filter(q => q.toLowerCase() !== normalizedQuery)`. -/
def histFilter (nq : String) : List String → List String
  | [] => []
  | x :: rest =>
    if jsToLower x = nq then histFilter nq rest else x :: histFilter nq rest

/-- History update (part_000 lines 365-368 and 422-425): prepend the raw
query, drop entries whose lowercase equals the normalized query, then
`slice(0, 3)`. -/
def pushHistory (q nq : String) (h : List String) : List String :=
  (q :: histFilter nq h).take 3

/-- A rejection reason as inspected by the orchestrator:
`reason.name` and `reason.message`. -/
structure JsErrName where
  name : String
  message : String
deriving DecidableEq, Repr

/-- Ternary on `reason.name.endsWith` of `Error`: the reason message when
the name ends in `Error`, else the default. -/
def jsErrorMessage (r : JsErrName) (d : String) : String :=
  if jsEndsWith r.name "Error" then r.message else d

/-- Fallback image error (part_000 line 410). -/
def imageErrDefaultMsg : String :=
  "No se pudo generar la ilustración para este proceso."

/-- Fallback text error (part_000 line 440). -/
def textErrDefaultMsg : String :=
  "Ocurrió un error al obtener los detalles del proceso."

/-- Settled outcome of the `generateProcessImage` branch of
`Promise.allSettled`. -/
inductive ImgOutcome where
  | fulfilled (url : String)
  | rejected (reason : JsErrName)
deriving DecidableEq, Repr

/-- Settled outcome of the `fetchConstructionProcess` branch: the chunk
arguments delivered to `onTextStream` before settling, and the final
sources or the rejection reason. -/
inductive TextOutcome where
  | fulfilled (chunks : List (Option String)) (sources : List GroundingChunkT)
  | rejected (chunks : List (Option String)) (reason : JsErrName)
deriving DecidableEq, Repr

/-- Chunks streamed during the text call. -/
def TextOutcome.chunks : TextOutcome → List (Option String)
  | .fulfilled cs _ => cs
  | .rejected cs _ => cs

/-- Whether `sourcesResult.status` is the `fulfilled` tag. -/
def TextOutcome.isFulfilled : TextOutcome → Bool
  | .fulfilled _ _ => true
  | .rejected _ _ => false

/-- Whether `imageResult.status` is the `fulfilled` tag. -/
def ImgOutcome.isFulfilled : ImgOutcome → Bool
  | .fulfilled _ => true
  | .rejected _ => false

/-- The `finalImageUrl` local: set only when the image branch fulfilled
with a truthy value (part_000 lines 400-404). -/
def ImgOutcome.truthyUrl : ImgOutcome → Option String
  | .fulfilled url => if url = "" then none else some url
  | .rejected _ => none

/-- `fullText` accumulation in `onTextStream`: append `chunk` defaulted
to the empty string when falsy. -/
def fullTextOf (chunks : List (Option String)) : String :=
  chunks.foldl (fun a c => a ++ c.getD "") ""

/-- The `setSearchResult` updater applied per streamed chunk (part_000
lines 386-389). -/
def streamStep (prev : Option SearchResult) (chunk : Option String) :
    Option SearchResult :=
  some ⟨(match prev with | some p => p.text | none => "") ++ chunk.getD "",
    match prev with | some p => p.sources | none => []⟩

/-- The `searchResult` state after all chunks streamed (starting from
the `setSearchResult(null)` of the miss path). -/
def streamFold (chunks : List (Option String)) : Option SearchResult :=
  chunks.foldl streamStep none

/-- Final published text on text success (part_000 lines 417-420):
`prev?.text || fullText` where `prev` is the streamed result. -/
def publishedText (chunks : List (Option String)) : String :=
  match streamFold chunks with
  | some p => if p.text = "" then fullTextOf chunks else p.text
  | none => fullTextOf chunks

/-- The App component state touched by `handleSearch`. -/
structure AppState where
  searchHistory : List String
  searchResult : Option SearchResult
  imageUrl : Option String
  isLoading : Bool
  isImageLoading : Bool
  error : Option String
  imageError : Option String
  isSearching : Bool
  cache : List (String × CacheEntry)
deriving DecidableEq, Repr

/-- Result of one `handleSearch` invocation: the final state once the
call has returned (after the `finally` block on the miss path), plus
whether the two generators were invoked (the miss path fires both via
`Promise.allSettled`; the guard, blank and hit paths fire neither). -/
structure SearchStep where
  state : AppState
  invoked : Bool
deriving DecidableEq, Repr

/-- `handleSearch` (part_000 lines 350-456), with the settled outcomes
of the two generator promises as parameters. -/
def handleSearch (s : AppState) (searchQuery : String)
    (tOut : TextOutcome) (iOut : ImgOutcome) : SearchStep :=
  if s.isSearching then ⟨s, false⟩
  else
    let nq := normalize searchQuery
    if nq = "" then ⟨s, false⟩
    else
      match lookupCache s.cache nq with
      | some entry =>
        ⟨{ s with
            searchResult := some entry.result,
            imageUrl := entry.imageUrl,
            error := none,
            imageError := none,
            isLoading := false,
            isImageLoading := false,
            searchHistory := pushHistory searchQuery nq s.searchHistory }, false⟩
      | none =>
        let chunks := tOut.chunks
        let fullText := fullTextOf chunks
        let finalImageUrl := iOut.truthyUrl
        let imageError1 : Option String :=
          match iOut with
          | .fulfilled _ => none
          | .rejected r => some (jsErrorMessage r imageErrDefaultMsg)
        match tOut with
        | .fulfilled _ finalSources =>
          ⟨{ s with
              searchResult := some ⟨publishedText chunks, finalSources⟩,
              imageUrl := finalImageUrl,
              imageError := imageError1,
              error := none,
              searchHistory := pushHistory searchQuery nq s.searchHistory,
              cache :=
                if iOut.isFulfilled && finalImageUrl.isSome then
                  cacheSet s.cache nq ⟨⟨fullText, finalSources⟩, finalImageUrl⟩
                else cacheDelete s.cache nq,
              isSearching := false,
              isLoading := false,
              isImageLoading := false }, true⟩
        | .rejected _ r =>
          ⟨{ s with
              searchResult := none,
              imageUrl := finalImageUrl,
              imageError := imageError1,
              error := some (jsErrorMessage r textErrDefaultMsg),
              cache := cacheDelete s.cache nq,
              isSearching := false,
              isLoading := false,
              isImageLoading := false }, true⟩

/-! ### Support lemmas for the orchestrator -/

lemma lookupCache_cacheDelete (c : List (String × CacheEntry)) (k : String) :
    lookupCache (cacheDelete c k) k = none := by
  induction c with
  | nil => rfl
  | cons p rest ih =>
    obtain ⟨k', v⟩ := p
    by_cases h : k' = k <;> simp [cacheDelete, h, lookupCache, ih]

lemma lookupCache_cacheDelete_ne (c : List (String × CacheEntry)) (k k' : String)
    (h : k' ≠ k) : lookupCache (cacheDelete c k) k' = lookupCache c k' := by
  induction c with
  | nil => rfl
  | cons p rest ih =>
    obtain ⟨k'', v⟩ := p
    by_cases h1 : k'' = k
    · simp only [cacheDelete, if_pos h1, ih, lookupCache]
      rw [if_neg (fun h2 : k'' = k' => h (h2.symm.trans h1))]
    · simp only [cacheDelete, if_neg h1, lookupCache]
      by_cases h2 : k'' = k' <;> simp [h2, ih]

lemma lookupCache_cacheSet_self (c : List (String × CacheEntry)) (k : String)
    (v : CacheEntry) : lookupCache (cacheSet c k v) k = some v := by
  simp [cacheSet, lookupCache]

lemma lookupCache_cacheSet_ne (c : List (String × CacheEntry)) (k k' : String)
    (v : CacheEntry) (h : k' ≠ k) :
    lookupCache (cacheSet c k v) k' = lookupCache c k' := by
  simp only [cacheSet, lookupCache]
  rw [if_neg (fun hh => h hh.symm)]
  exact lookupCache_cacheDelete_ne c k k' h

lemma histFilter_sublist (nq : String) (h : List String) :
    List.Sublist (histFilter nq h) h := by
  induction h with
  | nil => simp [histFilter]
  | cons x rest ih =>
    by_cases hx : jsToLower x = nq
    · simp only [histFilter, if_pos hx]
      exact ih.cons x
    · simp only [histFilter, if_neg hx]
      exact ih.cons₂ x

lemma mem_histFilter {nq x : String} {h : List String}
    (hx : x ∈ histFilter nq h) : x ∈ h ∧ jsToLower x ≠ nq := by
  induction h with
  | nil => simp [histFilter] at hx
  | cons y rest ih =>
    by_cases hy : jsToLower y = nq
    · simp only [histFilter, if_pos hy] at hx
      exact ⟨List.mem_cons_of_mem y (ih hx).1, (ih hx).2⟩
    · simp only [histFilter, if_neg hy, List.mem_cons] at hx
      rcases hx with rfl | hx
      · exact ⟨List.mem_cons_self x rest, hy⟩
      · exact ⟨List.mem_cons_of_mem y (ih hx).1, (ih hx).2⟩

lemma histFilter_eq_self {nq : String} {h : List String}
    (hall : ∀ x ∈ h, jsToLower x ≠ nq) : histFilter nq h = h := by
  induction h with
  | nil => rfl
  | cons y rest ih =>
    rw [histFilter, if_neg (hall y (List.mem_cons_self y rest))]
    rw [ih (fun x hx => hall x (List.mem_cons_of_mem y hx))]

lemma histFilter_length_of_mem {nq : String} {h : List String}
    (hpw : h.Pairwise (fun a b => jsToLower a ≠ jsToLower b))
    (hx : ∃ x ∈ h, jsToLower x = nq) :
    (histFilter nq h).length + 1 = h.length := by
  induction h with
  | nil => simp at hx
  | cons y rest ih =>
    rw [List.pairwise_cons] at hpw
    by_cases hy : jsToLower y = nq
    · rw [histFilter, if_pos hy]
      rw [histFilter_eq_self (fun x hxm => by
        rw [← hy]
        exact fun hc => hpw.1 x hxm hc.symm)]
      simp
    · obtain ⟨x, hxm, hxl⟩ := hx
      rcases List.mem_cons.mp hxm with rfl | hxm
      · exact absurd hxl hy
      · rw [histFilter, if_neg hy]
        simp only [List.length_cons]
        rw [← ih hpw.2 ⟨x, hxm, hxl⟩]

lemma pushHistory_length_le (q nq : String) (h : List String) :
    (pushHistory q nq h).length ≤ 3 := by
  simp only [pushHistory, List.length_take]
  omega

lemma pushHistory_pairwise (q nq : String) (h : List String)
    (hq : jsToLower q = nq)
    (hpw : h.Pairwise (fun a b => jsToLower a ≠ jsToLower b)) :
    (pushHistory q nq h).Pairwise (fun a b => jsToLower a ≠ jsToLower b) := by
  refine List.Pairwise.sublist (List.take_sublist _ _) ?_
  rw [List.pairwise_cons]
  constructor
  · intro x hx
    rw [hq]
    exact fun hc => (mem_histFilter hx).2 hc.symm
  · exact List.Pairwise.sublist (histFilter_sublist nq h) hpw

lemma pushHistory_head (q nq : String) (h : List String) :
    (pushHistory q nq h).head? = some q := rfl

lemma pushHistory_move_front (q nq : String) (h : List String)
    (hlen : h.length ≤ 3)
    (hpw : h.Pairwise (fun a b => jsToLower a ≠ jsToLower b))
    (hx : ∃ x ∈ h, jsToLower x = nq) :
    (pushHistory q nq h).length = h.length := by
  have hf := histFilter_length_of_mem hpw hx
  simp only [pushHistory, List.length_take, List.length_cons]
  omega

lemma streamFold_from_some (chunks : List (Option String)) :
    ∀ (t : String) (ss : List GroundingChunkT),
      chunks.foldl streamStep (some ⟨t, ss⟩) =
        some ⟨chunks.foldl (fun a c => a ++ c.getD "") t, ss⟩ := by
  induction chunks with
  | nil => intro t ss; rfl
  | cons c rest ih =>
    intro t ss
    simp only [List.foldl_cons]
    rw [show streamStep (some ⟨t, ss⟩) c = some ⟨t ++ c.getD "", ss⟩ from rfl]
    exact ih _ _

lemma publishedText_eq_fullText (chunks : List (Option String)) :
    publishedText chunks = fullTextOf chunks := by
  cases chunks with
  | nil => rfl
  | cons c rest =>
    have hfold : streamFold (c :: rest) = some ⟨fullTextOf (c :: rest), []⟩ := by
      unfold streamFold fullTextOf
      simp only [List.foldl_cons]
      rw [show streamStep none c =
        some ⟨"" ++ c.getD "", ([] : List GroundingChunkT)⟩ from rfl]
      exact streamFold_from_some rest _ _
    unfold publishedText
    rw [hfold]
    by_cases hx : fullTextOf (c :: rest) = "" <;> simp [hx]

/-- The initial App state (the `useState` defaults of the component). -/
def initialState : AppState :=
  ⟨[], none, none, false, false, none, none, false, []⟩

lemma handleSearch_history_cases (s : AppState) (q : String)
    (tOut : TextOutcome) (iOut : ImgOutcome) :
    (handleSearch s q tOut iOut).state.searchHistory = s.searchHistory ∨
    (handleSearch s q tOut iOut).state.searchHistory =
      pushHistory q (normalize q) s.searchHistory := by
  by_cases h1 : s.isSearching
  · left
    simp [handleSearch, h1]
  · by_cases h2 : normalize q = ""
    · left
      simp [handleSearch, h1, h2]
    · cases hl : lookupCache s.cache (normalize q) with
      | some e =>
        right
        simp [handleSearch, h1, h2, hl]
      | none =>
        cases tOut with
        | fulfilled c srcs =>
          right
          simp [handleSearch, h1, h2, hl]
        | rejected c r =>
          left
          simp [handleSearch, h1, h2, hl]

/-- C9: while one search is in flight (`isSearching` is true), any
further `handleSearch` call — same or different query — returns
immediately: neither generator is invoked and the whole state (cache,
history, published result and error flags) is unchanged; the new
request is neither queued nor does it cancel the in-flight search. -/
theorem handleSearch_reentrant_noop (s : AppState) (q : String)
    (tOut : TextOutcome) (iOut : ImgOutcome) (h : s.isSearching = true) :
    handleSearch s q tOut iOut = ⟨s, false⟩ := by
  simp [handleSearch, h]

/-- C9 witness: a concrete in-flight state is left untouched. -/
theorem handleSearch_reentrant_noop_witness :
    handleSearch ⟨["x"], none, none, true, true, none, none, true, []⟩ "foo"
      (.fulfilled [some "t"] []) (.fulfilled "u") =
      ⟨⟨["x"], none, none, true, true, none, none, true, []⟩, false⟩ :=
  handleSearch_reentrant_noop _ "foo" _ _ rfl

/-- C1: a first (cache-miss) call whose text generation succeeds but
whose image generation fails leaves no cache entry under the normalized
query; the state is idle again afterwards, and a subsequent identical
call takes the miss path and invokes both generators; more generally a
first call creates an entry under the normalized query only when the
text outcome is fulfilled and the image outcome is fulfilled with a
truthy URL. -/
theorem handleSearch_no_cache_on_image_failure (s : AppState) (q : String)
    (chunks : List (Option String)) (srcs : List GroundingChunkT)
    (reason : JsErrName) (hns : s.isSearching = false)
    (hq : normalize q ≠ "")
    (hmiss : lookupCache s.cache (normalize q) = none) :
    lookupCache
        (handleSearch s q (.fulfilled chunks srcs) (.rejected reason)).state.cache
        (normalize q) = none
    ∧ (handleSearch s q (.fulfilled chunks srcs) (.rejected reason)).state.isSearching =
        false
    ∧ (∀ tOut2 iOut2,
        (handleSearch
          (handleSearch s q (.fulfilled chunks srcs) (.rejected reason)).state
          q tOut2 iOut2).invoked = true)
    ∧ (∀ tOut iOut,
        (lookupCache (handleSearch s q tOut iOut).state.cache
          (normalize q)).isSome = true →
        tOut.isFulfilled = true ∧ iOut.truthyUrl.isSome = true) := by
  have hc1 : (handleSearch s q (.fulfilled chunks srcs)
      (.rejected reason)).state.cache = cacheDelete s.cache (normalize q) := by
    simp [handleSearch, hns, hq, hmiss, ImgOutcome.truthyUrl, ImgOutcome.isFulfilled]
  have hc2 : (handleSearch s q (.fulfilled chunks srcs)
      (.rejected reason)).state.isSearching = false := by
    simp [handleSearch, hns, hq, hmiss]
  have hmiss2 : lookupCache (handleSearch s q (.fulfilled chunks srcs)
      (.rejected reason)).state.cache (normalize q) = none := by
    rw [hc1]
    exact lookupCache_cacheDelete _ _
  refine ⟨hmiss2, hc2, ?_, ?_⟩
  · intro tOut2 iOut2
    generalize (handleSearch s q (.fulfilled chunks srcs)
      (.rejected reason)).state = s1 at hc2 hmiss2
    cases tOut2 with
    | fulfilled c2 s2 => simp [handleSearch, hc2, hq, hmiss2]
    | rejected c2 r2 => simp [handleSearch, hc2, hq, hmiss2]
  · intro tOut iOut hsome
    cases tOut with
    | rejected c r =>
      rw [show (handleSearch s q (.rejected c r) iOut).state.cache =
          cacheDelete s.cache (normalize q) from by
        simp [handleSearch, hns, hq, hmiss]] at hsome
      rw [lookupCache_cacheDelete] at hsome
      simp at hsome
    | fulfilled c srcs2 =>
      cases iOut with
      | rejected r =>
        rw [show (handleSearch s q (.fulfilled c srcs2)
            (.rejected r)).state.cache = cacheDelete s.cache (normalize q) from by
          simp [handleSearch, hns, hq, hmiss, ImgOutcome.truthyUrl,
            ImgOutcome.isFulfilled]] at hsome
        rw [lookupCache_cacheDelete] at hsome
        simp at hsome
      | fulfilled url =>
        by_cases hu : url = ""
        · rw [show (handleSearch s q (.fulfilled c srcs2)
              (.fulfilled url)).state.cache = cacheDelete s.cache (normalize q) from by
            simp [handleSearch, hns, hq, hmiss, ImgOutcome.truthyUrl,
              ImgOutcome.isFulfilled, hu]] at hsome
          rw [lookupCache_cacheDelete] at hsome
          simp at hsome
        · exact ⟨rfl, by simp [ImgOutcome.truthyUrl, hu]⟩

/-- C1 witness: empty cache, text succeeds, image rejects. -/
theorem handleSearch_no_cache_on_image_failure_witness :
    lookupCache
        (handleSearch initialState "foo" (.fulfilled [some "t"] [])
          (.rejected ⟨"NetworkError", "down"⟩)).state.cache
        (normalize "foo") = none :=
  (handleSearch_no_cache_on_image_failure initialState "foo" [some "t"] []
    ⟨"NetworkError", "down"⟩ rfl (by decide) rfl).1

/-- C2: on a cache hit, `handleSearch` invokes neither generator and
publishes exactly the cached text, sources and image reference while
clearing every loading and error flag, leaving the cache untouched; on
a cache miss where both generators succeed, exactly one entry is
created under the normalized query (all other keys unchanged), so any
later call whose query normalizes to the same key short-circuits and
reproduces the cached text, sources and image reference. -/
theorem handleSearch_cache_hit_short_circuit (s : AppState) (q : String)
    (entry : CacheEntry) (hns : s.isSearching = false)
    (hq : normalize q ≠ "")
    (hhit : lookupCache s.cache (normalize q) = some entry) :
    (∀ tOut iOut,
      (handleSearch s q tOut iOut).invoked = false
      ∧ (handleSearch s q tOut iOut).state.searchResult = some entry.result
      ∧ (handleSearch s q tOut iOut).state.imageUrl = entry.imageUrl
      ∧ (handleSearch s q tOut iOut).state.error = none
      ∧ (handleSearch s q tOut iOut).state.imageError = none
      ∧ (handleSearch s q tOut iOut).state.isLoading = false
      ∧ (handleSearch s q tOut iOut).state.isImageLoading = false
      ∧ (handleSearch s q tOut iOut).state.cache = s.cache)
    ∧ (∀ (s' : AppState) (q' : String) (chunks : List (Option String))
        (srcs : List GroundingChunkT) (url : String),
        s'.isSearching = false → normalize q' ≠ "" →
        lookupCache s'.cache (normalize q') = none → url ≠ "" →
        lookupCache
            (handleSearch s' q' (.fulfilled chunks srcs)
              (.fulfilled url)).state.cache (normalize q') =
          some ⟨⟨fullTextOf chunks, srcs⟩, some url⟩
        ∧ (∀ k, k ≠ normalize q' →
            lookupCache
                (handleSearch s' q' (.fulfilled chunks srcs)
                  (.fulfilled url)).state.cache k = lookupCache s'.cache k)
        ∧ (∀ q2 tOut2 iOut2, normalize q2 = normalize q' →
            (handleSearch
                (handleSearch s' q' (.fulfilled chunks srcs)
                  (.fulfilled url)).state q2 tOut2 iOut2).invoked = false
            ∧ (handleSearch
                (handleSearch s' q' (.fulfilled chunks srcs)
                  (.fulfilled url)).state q2 tOut2 iOut2).state.searchResult =
                some ⟨fullTextOf chunks, srcs⟩
            ∧ (handleSearch
                (handleSearch s' q' (.fulfilled chunks srcs)
                  (.fulfilled url)).state q2 tOut2 iOut2).state.imageUrl =
                some url)) := by
  constructor
  · intro tOut iOut
    refine ⟨?_, ?_, ?_, ?_, ?_, ?_, ?_, ?_⟩ <;>
      simp [handleSearch, hns, hq, hhit]
  · intro s' q' chunks srcs url hns' hq' hmiss' hu
    have hcache : (handleSearch s' q' (.fulfilled chunks srcs)
        (.fulfilled url)).state.cache =
        cacheSet s'.cache (normalize q')
          ⟨⟨fullTextOf chunks, srcs⟩, some url⟩ := by
      simp [handleSearch, hns', hq', hmiss', ImgOutcome.truthyUrl,
        ImgOutcome.isFulfilled, hu, TextOutcome.chunks]
    have hns2 : (handleSearch s' q' (.fulfilled chunks srcs)
        (.fulfilled url)).state.isSearching = false := by
      simp [handleSearch, hns', hq', hmiss']
    have hself : lookupCache (handleSearch s' q' (.fulfilled chunks srcs)
        (.fulfilled url)).state.cache (normalize q') =
        some ⟨⟨fullTextOf chunks, srcs⟩, some url⟩ := by
      rw [hcache]
      exact lookupCache_cacheSet_self _ _ _
    refine ⟨hself, ?_, ?_⟩
    · intro k hk
      rw [hcache]
      exact lookupCache_cacheSet_ne _ _ _ _ hk
    · intro q2 tOut2 iOut2 hq2
      have hq2ne : normalize q2 ≠ "" := by
        rw [hq2]
        exact hq'
      have hhit2 : lookupCache (handleSearch s' q' (.fulfilled chunks srcs)
          (.fulfilled url)).state.cache (normalize q2) =
          some ⟨⟨fullTextOf chunks, srcs⟩, some url⟩ := by
        rw [hq2]
        exact hself
      generalize (handleSearch s' q' (.fulfilled chunks srcs)
        (.fulfilled url)).state = s1 at hns2 hhit2
      refine ⟨?_, ?_, ?_⟩ <;>
        simp [handleSearch, hns2, hq2ne, hhit2]

/-- C2 witness: state with a cached entry under key `"q"`. -/
theorem handleSearch_cache_hit_short_circuit_witness :
    lookupCache
        ((⟨[], none, none, false, false, none, none, false,
          [("q", ⟨⟨"T", []⟩, some "img"⟩)]⟩ : AppState)).cache
        (normalize "q") = some ⟨⟨"T", []⟩, some "img"⟩ ∧
    (handleSearch
        ⟨[], none, none, false, false, none, none, false,
          [("q", ⟨⟨"T", []⟩, some "img"⟩)]⟩ "q"
        (.fulfilled [] []) (.fulfilled "u")).invoked = false :=
  ⟨by decide,
    ((handleSearch_cache_hit_short_circuit
      ⟨[], none, none, false, false, none, none, false,
        [("q", ⟨⟨"T", []⟩, some "img"⟩)]⟩ "q" ⟨⟨"T", []⟩, some "img"⟩
      rfl (by decide) (by decide)).1 (.fulfilled [] []) (.fulfilled "u")).1⟩

/-- C4: on a cache miss, if the report generator rejects then the
published `SearchResult` is cleared to `none` (no partial streamed text
remains), a text error derived from the rejection reason is published,
and a fulfilled truthy image remains published; if instead only the
image generator rejects, the streamed text and the final sources are
published intact, the text error is cleared, and only the image-region
error message is set — a failure in one channel never erases a success
obtained in the other. -/
theorem handleSearch_failure_channel_independence (s : AppState) (q : String)
    (hns : s.isSearching = false) (hq : normalize q ≠ "")
    (hmiss : lookupCache s.cache (normalize q) = none) :
    (∀ chunks reason iOut,
      (handleSearch s q (.rejected chunks reason) iOut).state.searchResult = none
      ∧ (handleSearch s q (.rejected chunks reason) iOut).state.error =
          some (jsErrorMessage reason textErrDefaultMsg)
      ∧ (handleSearch s q (.rejected chunks reason) iOut).state.imageUrl =
          iOut.truthyUrl)
    ∧ (∀ chunks srcs reason,
      (handleSearch s q (.fulfilled chunks srcs)
          (.rejected reason)).state.searchResult =
        some ⟨fullTextOf chunks, srcs⟩
      ∧ (handleSearch s q (.fulfilled chunks srcs)
          (.rejected reason)).state.imageError =
          some (jsErrorMessage reason imageErrDefaultMsg)
      ∧ (handleSearch s q (.fulfilled chunks srcs)
          (.rejected reason)).state.error = none) := by
  constructor
  · intro chunks reason iOut
    refine ⟨?_, ?_, ?_⟩ <;> simp [handleSearch, hns, hq, hmiss]
  · intro chunks srcs reason
    refine ⟨?_, ?_, ?_⟩ <;>
      simp [handleSearch, hns, hq, hmiss, publishedText_eq_fullText,
        TextOutcome.chunks]

/-- C4 witness: concrete text rejection with a fulfilled image. -/
theorem handleSearch_failure_channel_independence_witness :
    (handleSearch initialState "foo"
        (.rejected [some "partial"] ⟨"InvalidQueryError", "bad"⟩)
        (.fulfilled "u")).state.searchResult = none :=
  ((handleSearch_failure_channel_independence initialState "foo" rfl (by decide)
      rfl).1 [some "partial"] ⟨"InvalidQueryError", "bad"⟩ (.fulfilled "u")).1

/-- C6 counterexample: searching `"foo "` (trailing space) and then
`"Foo "` leaves the history `["Foo ", "foo "]`, which contains two
distinct entries that are case-insensitive-equal, because the dedup
filter compares each stored entry's lowercase against the trimmed
lowercase of the new query. -/
theorem handleSearch_history_case_insensitive_dup :
    (handleSearch
        (handleSearch initialState "foo " (.fulfilled [some "t"] [])
          (.fulfilled "u")).state
        "Foo " (.fulfilled [some "t"] []) (.fulfilled "u")).state.searchHistory =
      ["Foo ", "foo "] ∧
    jsToLower "Foo " = jsToLower "foo " ∧ ("Foo " : String) ≠ "foo " := by
  exact ⟨by decide, by decide, by decide⟩

/-- C6 (amended): provided the searched query carries no surrounding
whitespace (`trim` is the identity on it), the history invariant holds
as claimed: after any `handleSearch` step the history holds at most 3
entries and never two case-insensitive-equal strings, and when it
changes it becomes the push of the query with its case-insensitive
duplicates removed — most-recent first, and without growing when a
case-insensitive match was already present.  (A query with surrounding
whitespace can instead leave two case-insensitive-equal entries; see
the counterexample.) -/
theorem handleSearch_history_invariant (s : AppState) (q : String)
    (tOut : TextOutcome) (iOut : ImgOutcome)
    (hlen : s.searchHistory.length ≤ 3)
    (hpw : s.searchHistory.Pairwise (fun a b => jsToLower a ≠ jsToLower b))
    (hq : jsTrim q = q) :
    (handleSearch s q tOut iOut).state.searchHistory.length ≤ 3
    ∧ (handleSearch s q tOut iOut).state.searchHistory.Pairwise
        (fun a b => jsToLower a ≠ jsToLower b)
    ∧ ((handleSearch s q tOut iOut).state.searchHistory = s.searchHistory
      ∨ ((handleSearch s q tOut iOut).state.searchHistory =
            pushHistory q (normalize q) s.searchHistory
        ∧ (handleSearch s q tOut iOut).state.searchHistory.head? = some q
        ∧ ((∃ x ∈ s.searchHistory, jsToLower x = normalize q) →
            (handleSearch s q tOut iOut).state.searchHistory.length =
              s.searchHistory.length))) := by
  have hqn : jsToLower q = normalize q := by
    unfold normalize
    rw [hq]
  rcases handleSearch_history_cases s q tOut iOut with hcase | hcase
  · rw [hcase]
    exact ⟨hlen, hpw, Or.inl rfl⟩
  · rw [hcase]
    refine ⟨pushHistory_length_le _ _ _, pushHistory_pairwise _ _ _ hqn hpw, Or.inr ⟨rfl, ?_, ?_⟩⟩
    · exact pushHistory_head _ _ _
    · intro hx
      exact pushHistory_move_front q (normalize q) s.searchHistory hlen hpw hx

/-- C6 witness: a trimmed query applied to the initial state. -/
theorem handleSearch_history_invariant_witness :
    jsTrim "abc" = "abc" ∧
    (handleSearch initialState "abc" (.fulfilled [some "t"] [])
      (.fulfilled "u")).state.searchHistory.length ≤ 3 :=
  ⟨by decide,
    (handleSearch_history_invariant initialState "abc" (.fulfilled [some "t"] [])
      (.fulfilled "u") (by decide) List.Pairwise.nil (by decide)).1⟩

end Guia
